import Mathlib

/-!
Verification of the beer-agenda event pipeline.

The repository is a linear pipeline: a browser-automation collaborator fetches
a Facebook events page and (via an LLM extraction strategy) produces a
`CrawlResult`; `crawl_facebook_events` (src/crawlers/facebook.py) checks the
result, dumps a debug markdown file, parses the extracted JSON and maps it to
`Event` records (src/models/event.py, a pydantic model); `main`
(src/main.py) renders the records with `generate_markdown` and writes
`outputs/events.md`.

The browser, the LLM and Python's `json.loads` are external collaborators:
the embedding takes the `CrawlResult` as input and is parametrised by the
`loads` function (a JSON parser producing `Json` values or a decode error).
Side effects (prints, directory creation, file writes) are recorded as an
explicit list of `Effect`s in program order; a small file-system interpreter
executes such a trace against a set of existing directories, failing -- as
Python's `open(path, "w")` does -- when a file is written into a directory
that does not exist.
-/

namespace BeerAgenda

/-- JSON values, the possible results of the external `json.loads` call. -/
inductive Json where
  | null
  | bool (b : Bool)
  | num (n : Int)
  | str (s : String)
  | arr (elems : List Json)
  | obj (fields : List (String × Json))

/-- Event data model (src/models/event.py): four required string fields. -/
structure Event where
  date : String
  title : String
  organizer : String
  link : String
deriving Repr, DecidableEq

/-- The declared field names of `Event`, in declaration order. -/
def Event.fieldNames : List String := ["date", "title", "organizer", "link"]

/-- Look up a key in a JSON object (first binding wins, as in Python dicts
obtained from `json.loads`, which keep the last duplicate; extracted objects
have unique keys so first/last does not matter). -/
def lookupField (kvs : List (String × Json)) (k : String) : Option Json :=
  (kvs.find? (fun kv => kv.1 = k)).map (fun kv => kv.2)

/-- The value of a field if it is present and is a JSON string; pydantic v2
accepts exactly strings for a `str` field and reports missing or
wrongly-typed fields as validation errors. -/
def getStrField (kvs : List (String × Json)) (k : String) : Option String :=
  match lookupField kvs k with
  | some (Json.str s) => some s
  | _ => none

/-- Errors of the mapping step `Event(**item)`. -/
inductive MapErr where
  /-- `item` is not a mapping: `Event(**item)` raises `TypeError`. -/
  | typeError
  /-- pydantic `ValidationError`; carries the names of the failing fields. -/
  | validation (fields : List String)
deriving Repr, DecidableEq

/-- Validation performed by pydantic in `Event(**item)` for a JSON object:
every declared field must be present with a string value; otherwise a
`ValidationError` naming every failing field (in declaration order). -/
def validateEvent (kvs : List (String × Json)) : Except MapErr Event :=
  match getStrField kvs "date", getStrField kvs "title",
      getStrField kvs "organizer", getStrField kvs "link" with
  | some d, some t, some o, some l => .ok ⟨d, t, o, l⟩
  | _, _, _, _ =>
      .error (.validation
        (Event.fieldNames.filter (fun k => (getStrField kvs k).isNone)))

/-- `Event(**item)` for one JSON value: keyword expansion requires a
mapping (`TypeError` otherwise), then pydantic validation runs. -/
def eventOfJson : Json → Except MapErr Event
  | .obj kvs => validateEvent kvs
  | _ => .error .typeError

/-- The list comprehension `[Event(**item) for item in extracted]`:
left to right, the first exception aborts the whole comprehension. -/
def mapEvents : List Json → Except MapErr (List Event)
  | [] => .ok []
  | item :: rest =>
    match eventOfJson item with
    | .error e => .error e
    | .ok ev =>
      match mapEvents rest with
      | .error e => .error e
      | .ok evs => .ok (ev :: evs)

/-- Iterating a Python value (`for item in extracted`): lists yield their
elements, dicts their keys, strings their characters; other JSON values are
not iterable and raise `TypeError`. -/
def pyIter : Json → Except MapErr (List Json)
  | .arr xs => .ok xs
  | .obj kvs => .ok (kvs.map (fun kv => Json.str kv.1))
  | .str s => .ok (s.data.map (fun c => Json.str (String.mk [c])))
  | _ => .error .typeError

/-- The result object returned by the crawler collaborator
(`crawler.arun`), restricted to the fields the pipeline reads.
`markdown` and `extracted_content` are `None`-able. -/
structure CrawlResult where
  success : Bool
  markdown : Option String
  extracted_content : Option String
  error_message : Option String
deriving Repr, DecidableEq

/-- Observable side effects of a run, in program order. -/
inductive Effect where
  /-- `print(msg)`. -/
  | log (msg : String)
  /-- `Path(p).mkdir(exist_ok=True)`. -/
  | mkdir (p : String)
  /-- An overwriting file write: `open(p, "w")` / `Path.write_text`. -/
  | write (p : String) (content : String)
deriving Repr, DecidableEq

/-- Exceptions that can escape `crawl_facebook_events`. -/
inductive RunErr where
  /-- `json.loads` raised `JSONDecodeError`. -/
  | jsonDecode (msg : String)
  /-- the mapping step raised (`TypeError` or pydantic `ValidationError`). -/
  | mapping (e : MapErr)
deriving Repr, DecidableEq

/-- Either a normal return value or an uncaught exception. -/
inductive Outcome where
  | returned (events : List Event)
  | raised (e : RunErr)
deriving Repr, DecidableEq

/-- Python string interpolation of an `Optional[str]`: `None` prints as
the literal `None`. -/
def optStr : Option String → String
  | some s => s
  | none => "None"

/-- The debug-save block of `crawl_facebook_events` (src/crawlers/facebook.py
lines 73-78): if `result.markdown` is truthy, write it to
`outputs/debug_markdown.md` (with `open(..., "w")`) and print. -/
def debugEffectsOf (result : CrawlResult) : List Effect :=
  match result.markdown with
  | some m =>
    if m = "" then []
    else [Effect.write "outputs/debug_markdown.md" m,
          Effect.log "Debug markdown saved to outputs/debug_markdown.md"]
  | none => []

/-- The tail of the success path (src/crawlers/facebook.py lines 84-85):
`extracted = json.loads(result.extracted_content)` followed by
`return [Event(**item) for item in extracted]`. `parsed` is what the
external `json.loads` produced (value or decode error); every exception
becomes a `raised` outcome, the debug effects already emitted are kept. -/
def mapMapped (debug : List Effect) :
    Except MapErr (List Event) → Outcome × List Effect
  | .error e => (.raised (.mapping e), debug)
  | .ok evs => (.returned evs, debug)

/-- Iterate the parsed value and run the comprehension (`mapMapped` holds
its result): part of src/crawlers/facebook.py line 85. -/
def mapItems (debug : List Effect) :
    Except MapErr (List Json) → Outcome × List Effect
  | .error e => (.raised (.mapping e), debug)
  | .ok items => mapMapped debug (mapEvents items)

/-- Parse step: part of src/crawlers/facebook.py line 84. -/
def mapExtracted (debug : List Effect) :
    Except String Json → Outcome × List Effect
  | .error e => (.raised (.jsonDecode e), debug)
  | .ok j => mapItems debug (pyIter j)

/-- `crawl_facebook_events` (src/crawlers/facebook.py lines 61-85), after
the browser call: the `CrawlResult` is the input, `loads` is the external
`json.loads`. Returns the outcome together with the trace of effects.

Source, lines 69-85: on failure print and return `[]`; run the debug-save
block (`debugEffectsOf`); if `result.extracted_content` is falsy (absent or
empty) print and return `[]`; otherwise `json.loads` it and build
`[Event(**item) for item in extracted]`, letting any exception escape. -/
def crawl_facebook_events (loads : String → Except String Json)
    (result : CrawlResult) : Outcome × List Effect :=
  if result.success = false then
    (.returned [], [.log ("Crawl failed: " ++ optStr result.error_message)])
  else
    let debugEffects := debugEffectsOf result
    match result.extracted_content with
    | none => (.returned [], debugEffects ++ [.log "No content extracted."])
    | some s =>
      if s = "" then
        (.returned [], debugEffects ++ [.log "No content extracted."])
      else
        mapExtracted debugEffects (loads s)

/-- One rendered event section of the report (the f-string body of the loop
in `generate_markdown`, src/main.py lines 25-31). -/
def eventBlock (event : Event) : String :=
  "## " ++ event.title ++
  "\n- **Date:** " ++ event.date ++
  "\n- **Organisateur:** " ++ event.organizer ++
  "\n- **Lien:** " ++ event.link ++ "\n\n"

/-- `generate_markdown` (src/main.py lines 11-36). `now` is the formatted
`datetime.now()` timestamp, passed explicitly since the clock is external.
Returns the rendered content and the effect trace:
`OUTPUT_DIR.mkdir(exist_ok=True)`, the overwriting `write_text`, the print. -/
def generate_markdown (events : List Event) (source_url : String)
    (now : String) : String × List Effect :=
  let header := "# Événements\n\n> Généré le " ++ now ++
    "\n> Source: " ++ source_url ++ "\n\n---\n\n"
  let events_md := events.foldl (fun acc event => acc ++ eventBlock event) ""
  let content := header ++ events_md
  (content,
    [.mkdir "outputs", .write "outputs/events.md" content,
     .log "Markdown saved to outputs/events.md"])

/-- `main` (src/main.py lines 39-52): crawl, and if the event list is
falsy print `No events found.` and stop, else print the count, render and
write the report, print `Done!`. An exception escaping the crawl aborts
`main` after the effects emitted so far. -/
def main (loads : String → Except String Json) (result : CrawlResult)
    (now : String) : Outcome × List Effect :=
  let page_name := "BrasserieOrville"
  let source_url := "https://www.facebook.com/" ++ page_name ++ "/events"
  let pre := [Effect.log ("Crawling " ++ page_name ++ " events...")]
  match crawl_facebook_events loads result with
  | (.raised e, effs) => (.raised e, pre ++ effs)
  | (.returned events, effs) =>
    if events.isEmpty then
      (.returned [], pre ++ effs ++ [.log "No events found."])
    else
      let md := generate_markdown events source_url now
      (.returned events,
        pre ++ effs ++
        [.log ("Found " ++ toString events.length ++ " events.")] ++
        md.2 ++ [.log "Done!"])

/-- File-system errors raised while executing a trace. -/
inductive FsErr where
  /-- `open(p, "w")` with a missing parent directory raises
  `FileNotFoundError`. -/
  | fileNotFound (p : String)
deriving Repr, DecidableEq

/-- The directory part of a relative path: characters before the last `/`
(empty for a bare file name, meaning the working directory). -/
def dirOf (p : String) : String :=
  String.mk (((p.data.reverse.dropWhile (fun c => c ≠ '/')).drop 1).reverse)

/-- Execute a trace of effects against a file system: `dirs` is the set of
existing directories, `written` accumulates the files successfully written in
order. A write into a missing directory stops execution with
`FileNotFoundError`; `mkdir` with `exist_ok=True` never fails. -/
def runFs (dirs : List String) (written : List String) :
    List Effect → List String × Option FsErr
  | [] => (written, none)
  | .log _ :: es => runFs dirs written es
  | .mkdir p :: es => runFs (if p ∈ dirs then dirs else p :: dirs) written es
  | .write p _ :: es =>
    if dirOf p = "" ∨ dirOf p ∈ dirs then runFs dirs (written ++ [p]) es
    else (written, some (.fileNotFound p))

/-- Whether an effect is a write of the events report file. -/
def isReportWrite : Effect → Bool
  | .write p _ => p == "outputs/events.md"
  | _ => false

/-! ### Concrete inputs used by witnesses and counterexamples -/

/-- A record list falsifying the unrestricted round-trip claim: its title
contains a newline followed by a line starting with `## `. -/
def c1BadEvents : List Event :=
  [{ date := "d", title := "A\n## B", organizer := "o", link := "l" }]

/-- The extraction one event array used by the C2 witness. -/
def w2Item : Json :=
  .obj [("date", .str "d"), ("title", .str "t"),
        ("organizer", .str "o"), ("link", .str "l")]

/-- A `json.loads` stub returning the C2 witness array. -/
def w2Loads : String → Except String Json := fun _ => .ok (.arr [w2Item])

/-- A successful crawl result for the C2 witness. -/
def w2Result : CrawlResult :=
  { success := true, markdown := none, extracted_content := some "x",
    error_message := none }

/-- The invalid extraction used by the C5 witness: a JSON array whose only
element is a number, which `Event(**item)` rejects. -/
def w5Loads : String → Except String Json := fun _ => .ok (.arr [.num 3])

/-- A successful crawl result carrying unparseable-to-records content, for
the C5 witness. -/
def w5Result : CrawlResult :=
  { success := true, markdown := none, extracted_content := some "[3]",
    error_message := none }

/-- The C6 witness object: `date`, `title`, `link` present, `organizer`
absent. -/
def w6kvs : List (String × Json) :=
  [("date", .str "d"), ("title", .str "t"), ("link", .str "l")]

/-- A `json.loads` stub never consulted by the failure-path witnesses. -/
def wLoadsUnused : String → Except String Json := fun _ => .error "unused"

/-- A failed crawl result (navigation timeout) for the C4 witness. -/
def w4Result : CrawlResult :=
  { success := false, markdown := none, extracted_content := none,
    error_message := some "timeout" }

/-- A successful crawl with no extracted content, for the C7 witness. -/
def w7Result : CrawlResult :=
  { success := true, markdown := some "page text",
    extracted_content := none, error_message := none }

/-- A `json.loads` stub returning the empty JSON array, for the C10
witness. -/
def w10Loads : String → Except String Json := fun _ => .ok (.arr [])

/-- A successful crawl whose extraction is the empty array, for the C10
witness. -/
def w10Result : CrawlResult :=
  { success := true, markdown := some "page text",
    extracted_content := some "[]", error_message := none }

/-- A `json.loads` stub returning the empty array, for the C8
counterexample run. -/
def w8Loads : String → Except String Json := fun _ => .ok (.arr [])

/-- A successful crawl with non-empty markdown, for the C8 counterexample:
its run writes the debug dump file. -/
def w8Result : CrawlResult :=
  { success := true, markdown := some "md", extracted_content := some "[]",
    error_message := none }

/-- A `json.loads` stub returning the empty array, for the C9 witness. -/
def w9Loads : String → Except String Json := fun _ => .ok (.arr [])

/-- A successful crawl with non-empty markdown for the C9 witness. -/
def w9Result : CrawlResult :=
  { success := true, markdown := some "# page",
    extracted_content := some "[]", error_message := none }

/-! ### Re-parsing the report (claim C1)

The round-trip claim re-parses the rendered markdown into per-record
blocks: the sections are opened by the lines starting with `## `, and the
recovered title of a section is the rest of its opening line. -/

/-- Split a character stream into lines at every newline character. -/
def splitNl : List Char → List (List Char)
  | [] => [[]]
  | c :: cs =>
    if c = '\n' then [] :: splitNl cs
    else
      match splitNl cs with
      | [] => [[c]]
      | l :: ls => (c :: l) :: ls

/-- The recovered title of a line, when the line opens a record section. -/
def titleOfLine (line : List Char) : Option String :=
  if line.take 3 = ['#', '#', ' '] then some (String.mk (line.drop 3))
  else none

/-- Re-parse a rendered report: the titles of its record sections, in
document order. -/
def parse_markdown_titles (content : String) : List String :=
  (splitNl content.data).filterMap titleOfLine

/-- Specification-side rendering of the record list: the concatenation of
one block per record, in order (§4.5 of the spec). -/
def renderBlocks : List Event → String
  | [] => ""
  | e :: es => eventBlock e ++ renderBlocks es

/-- A string free of newline characters. -/
def noNl (s : String) : Prop := '\n' ∉ s.data

instance (s : String) : Decidable (noNl s) := by
  unfold noNl; infer_instance

/-! ## Lemmas about line splitting and the rendered report -/

theorem splitNl_newline_cons (ys : List Char) :
    splitNl ('\n' :: ys) = [] :: splitNl ys := by
  rw [splitNl]
  simp

theorem splitNl_cons_ne (c : Char) (cs : List Char) (hc : c ≠ '\n') :
    splitNl (c :: cs) =
      match splitNl cs with
      | [] => [[c]]
      | l :: ls => (c :: l) :: ls := by
  rw [splitNl]
  simp [hc]

theorem splitNl_append_newline (xs ys : List Char) (h : '\n' ∉ xs) :
    splitNl (xs ++ '\n' :: ys) = xs :: splitNl ys := by
  induction xs with
  | nil => simpa using splitNl_newline_cons ys
  | cons c cs ih =>
    have hc : c ≠ '\n' := fun e => h (e ▸ List.mem_cons_self c cs)
    have hcs : '\n' ∉ cs := fun m => h (List.mem_cons_of_mem _ m)
    rw [List.cons_append, splitNl_cons_ne c _ hc, ih hcs]

theorem titles_segment (xs ys : List Char) (h : '\n' ∉ xs) :
    (splitNl (xs ++ '\n' :: ys)).filterMap titleOfLine =
      (titleOfLine xs).toList ++ (splitNl ys).filterMap titleOfLine := by
  rw [splitNl_append_newline xs ys h, List.filterMap_cons]
  cases titleOfLine xs <;> simp

theorem titles_newline (ys : List Char) :
    (splitNl ('\n' :: ys)).filterMap titleOfLine =
      (splitNl ys).filterMap titleOfLine := by
  rw [splitNl_newline_cons, List.filterMap_cons]
  rfl

theorem titleOfLine_append_none (A t : List Char) (h3 : 3 ≤ A.length)
    (hA : A.take 3 ≠ ['#', '#', ' ']) : titleOfLine (A ++ t) = none := by
  unfold titleOfLine
  rw [List.take_append_of_le_length h3]
  simp [hA]

theorem titleOfLine_block (t : List Char) :
    titleOfLine ('#' :: '#' :: ' ' :: t) = some (String.mk t) := by
  simp [titleOfLine]

theorem titles_eventBlock (e : Event) (rest : List Char)
    (hd : noNl e.date) (ht : noNl e.title) (ho : noNl e.organizer)
    (hl : noNl e.link) :
    (splitNl ((eventBlock e).data ++ rest)).filterMap titleOfLine =
      e.title :: (splitNl rest).filterMap titleOfLine := by
  have hdata : (eventBlock e).data ++ rest =
      ('#' :: '#' :: ' ' :: e.title.data) ++ '\n' ::
        (("- **Date:** ".data ++ e.date.data) ++ '\n' ::
          (("- **Organisateur:** ".data ++ e.organizer.data) ++ '\n' ::
            (("- **Lien:** ".data ++ e.link.data) ++ '\n' :: '\n' :: rest))) := by
    simp only [eventBlock, String.data_append]
    simp [List.append_assoc]
  rw [hdata]
  rw [titles_segment _ _ (by
    intro hmem
    simp only [List.mem_cons] at hmem
    rcases hmem with h1 | h1 | h1 | hmem
    · exact absurd h1 (by decide)
    · exact absurd h1 (by decide)
    · exact absurd h1 (by decide)
    · exact ht hmem)]
  rw [titles_segment _ _ (by
    intro hmem
    rcases List.mem_append.mp hmem with hmem | hmem
    · exact absurd hmem (by decide)
    · exact hd hmem)]
  rw [titles_segment _ _ (by
    intro hmem
    rcases List.mem_append.mp hmem with hmem | hmem
    · exact absurd hmem (by decide)
    · exact ho hmem)]
  rw [titles_segment _ _ (by
    intro hmem
    rcases List.mem_append.mp hmem with hmem | hmem
    · exact absurd hmem (by decide)
    · exact hl hmem)]
  rw [titles_newline]
  rw [titleOfLine_block]
  rw [titleOfLine_append_none _ _ (by decide) (by decide)]
  rw [titleOfLine_append_none _ _ (by decide) (by decide)]
  rw [titleOfLine_append_none _ _ (by decide) (by decide)]
  simp

theorem titles_renderBlocks (events : List Event)
    (h : ∀ e ∈ events,
      noNl e.date ∧ noNl e.title ∧ noNl e.organizer ∧ noNl e.link) :
    (splitNl (renderBlocks events).data).filterMap titleOfLine =
      events.map Event.title := by
  induction events with
  | nil => rfl
  | cons e es ih =>
    have he := h e (List.mem_cons_self e es)
    have hes : ∀ x ∈ es,
        noNl x.date ∧ noNl x.title ∧ noNl x.organizer ∧ noNl x.link :=
      fun x hx => h x (List.mem_cons_of_mem _ hx)
    rw [renderBlocks, String.data_append,
      titles_eventBlock e _ he.1 he.2.1 he.2.2.1 he.2.2.2, ih hes]
    rfl

theorem titles_header (url now : String) (rest : List Char)
    (hu : noNl url) (hn : noNl now) :
    (splitNl ((("# Événements\n\n> Généré le " ++ now ++ "\n> Source: " ++
        url ++ "\n\n---\n\n").data) ++ rest)).filterMap titleOfLine =
      (splitNl rest).filterMap titleOfLine := by
  have hdata : (("# Événements\n\n> Généré le " ++ now ++ "\n> Source: " ++
        url ++ "\n\n---\n\n").data) ++ rest =
      "# Événements".data ++ '\n' :: '\n' ::
        (("> Généré le ".data ++ now.data) ++ '\n' ::
          (("> Source: ".data ++ url.data) ++ '\n' :: '\n' ::
            ("---".data ++ '\n' :: '\n' :: rest))) := by
    simp only [String.data_append]
    simp [List.append_assoc]
  rw [hdata]
  rw [titles_segment _ _ (by decide)]
  rw [titles_newline]
  rw [titles_segment _ _ (by
    intro hmem
    rcases List.mem_append.mp hmem with hmem | hmem
    · exact absurd hmem (by decide)
    · exact hn hmem)]
  rw [titles_segment _ _ (by
    intro hmem
    rcases List.mem_append.mp hmem with hmem | hmem
    · exact absurd hmem (by decide)
    · exact hu hmem)]
  rw [titles_newline]
  rw [titles_segment _ _ (by decide)]
  rw [titles_newline]
  rw [titleOfLine_append_none _ _ (by decide) (by decide)]
  rw [titleOfLine_append_none _ _ (by decide) (by decide)]
  have h1 : titleOfLine "# Événements".data = none := by decide
  have h4 : titleOfLine "---".data = none := by decide
  rw [h1, h4]
  rfl

theorem foldl_eventBlock (events : List Event) (s : String) :
    events.foldl (fun acc event => acc ++ eventBlock event) s =
      s ++ renderBlocks events := by
  induction events generalizing s with
  | nil => simp [renderBlocks]
  | cons e es ih =>
    rw [List.foldl_cons, ih, renderBlocks, String.append_assoc]

theorem generate_markdown_content (events : List Event) (url now : String) :
    (generate_markdown events url now).1 =
      ("# Événements\n\n> Généré le " ++ now ++ "\n> Source: " ++ url ++
        "\n\n---\n\n") ++ renderBlocks events := by
  unfold generate_markdown
  simp only
  rw [foldl_eventBlock]
  simp

/-! ## Claim C1 -/

/-- C1, as stated, is false: rendering a record whose title itself contains
a line starting with `## ` and re-parsing recovers two titles, not one. -/
theorem roundtrip_counterexample :
    parse_markdown_titles (generate_markdown c1BadEvents "u" "t").1 ≠
      c1BadEvents.map Event.title := by
  decide

/-- C1 (amended): provided no field of any record, nor the source URL, nor
the timestamp, contains a newline character, rendering with
`generate_markdown` and re-parsing the `## ` sections recovers exactly the
input titles, in order. -/
theorem roundtrip_titles (events : List Event) (url now : String)
    (h : ∀ e ∈ events,
      noNl e.date ∧ noNl e.title ∧ noNl e.organizer ∧ noNl e.link)
    (hu : noNl url) (hn : noNl now) :
    parse_markdown_titles (generate_markdown events url now).1 =
      events.map Event.title := by
  unfold parse_markdown_titles
  rw [generate_markdown_content, String.data_append,
    titles_header url now _ hu hn, titles_renderBlocks events h]

/-- Witness for C1 (amended) at a concrete newline-free record list. -/
theorem roundtrip_titles_witness :
    parse_markdown_titles (generate_markdown
      [{ date := "Thu, 15 Jan at 17:00 CET", title := "[Jeudi Concert]",
         organizer := "Brasserie Orville",
         link := "https://www.facebook.com/events/123456/" }]
      "https://www.facebook.com/BrasserieOrville/events"
      "2026-10-12 12:00").1 = ["[Jeudi Concert]"] :=
  roundtrip_titles _ _ _ (by decide) (by decide) (by decide)

/-! ## Claim C3 -/

/-- C3: the rendered report is exactly a header block -- carrying the
generation timestamp and the literal source URL -- followed by one
`## title` section per record, in order, each with the key/value lines
Date, Organisateur, Lien in that fixed order (see `eventBlock`). -/
theorem generate_markdown_render (events : List Event)
    (source_url now : String) :
    (generate_markdown events source_url now).1 =
      ("# Événements\n\n> Généré le " ++ now ++ "\n> Source: " ++
        source_url ++ "\n\n---\n\n") ++ renderBlocks events :=
  generate_markdown_content events source_url now

/-! ## Reduction lemmas for `crawl_facebook_events` -/

theorem crawl_fail_eq (loads : String → Except String Json)
    (result : CrawlResult) (h : result.success = false) :
    crawl_facebook_events loads result =
      (.returned [],
       [.log ("Crawl failed: " ++ optStr result.error_message)]) := by
  unfold crawl_facebook_events
  rw [h]
  simp

theorem crawl_none_eq (loads : String → Except String Json)
    (result : CrawlResult) (hs : result.success = true)
    (hc : result.extracted_content = none) :
    crawl_facebook_events loads result =
      (.returned [],
       debugEffectsOf result ++ [.log "No content extracted."]) := by
  unfold crawl_facebook_events
  rw [hs, hc]
  simp

theorem crawl_empty_eq (loads : String → Except String Json)
    (result : CrawlResult) (hs : result.success = true)
    (hc : result.extracted_content = some "") :
    crawl_facebook_events loads result =
      (.returned [],
       debugEffectsOf result ++ [.log "No content extracted."]) := by
  unfold crawl_facebook_events
  rw [hs, hc]
  simp

theorem crawl_some_eq (loads : String → Except String Json)
    (result : CrawlResult) (s : String) (hs : result.success = true)
    (hc : result.extracted_content = some s) (hne : s ≠ "") :
    crawl_facebook_events loads result =
      mapExtracted (debugEffectsOf result) (loads s) := by
  unfold crawl_facebook_events
  rw [hs, hc]
  simp [hne]

theorem mapExtracted_snd (debug : List Effect)
    (parsed : Except String Json) : (mapExtracted debug parsed).2 = debug := by
  cases parsed with
  | error e => rfl
  | ok j =>
    rw [mapExtracted]
    cases pyIter j with
    | error e => rfl
    | ok items =>
      rw [mapItems]
      cases mapEvents items with
      | error e => rfl
      | ok evs => rfl

/-! ## Lemmas about the mapping step -/

theorem mapEvents_ok_spec (items : List Json) (evs : List Event)
    (h : mapEvents items = .ok evs) :
    evs.length = items.length ∧
    ∀ i (hi : i < items.length) (hj : i < evs.length),
      eventOfJson items[i] = .ok evs[i] := by
  induction items generalizing evs with
  | nil =>
    rw [mapEvents] at h
    cases h
    exact ⟨rfl, fun i hi _ => absurd hi (by simp)⟩
  | cons item rest ih =>
    rw [mapEvents] at h
    cases he : eventOfJson item with
    | error e => rw [he] at h; cases h
    | ok ev =>
      rw [he] at h
      cases hr : mapEvents rest with
      | error e => rw [hr] at h; cases h
      | ok evs2 =>
        rw [hr] at h
        cases h
        obtain ⟨hlen, hget⟩ := ih evs2 hr
        refine ⟨by simp [hlen], ?_⟩
        intro i hi hj
        cases i with
        | zero => simpa using he
        | succ n =>
          simp only [List.getElem_cons_succ]
          exact hget n (by simpa using hi) (by simpa using hj)

theorem mapEvents_error_of_mem (items : List Json)
    (h : ∃ x ∈ items, ∀ ev, eventOfJson x ≠ .ok ev) :
    ∃ e, mapEvents items = .error e := by
  induction items with
  | nil => simp at h
  | cons item rest ih =>
    obtain ⟨x, hx, hbad⟩ := h
    rw [mapEvents]
    cases he : eventOfJson item with
    | error e => exact ⟨e, rfl⟩
    | ok ev =>
      rcases List.mem_cons.mp hx with rfl | hx2
      · exact absurd he (hbad ev)
      · obtain ⟨e, hme⟩ := ih ⟨x, hx2, hbad⟩
        rw [hme]
        exact ⟨e, rfl⟩

theorem validateEvent_missing_organizer (kvs : List (String × Json))
    (h : getStrField kvs "organizer" = none) :
    validateEvent kvs = .error (.validation
      (Event.fieldNames.filter (fun k => (getStrField kvs k).isNone))) := by
  unfold validateEvent
  rw [h]
  cases getStrField kvs "date" <;> cases getStrField kvs "title" <;>
    cases getStrField kvs "link" <;> rfl

/-! ## Claim C2 -/

/-- C2: whenever the crawl succeeds with non-empty extracted content that
parses as a JSON array, and `crawl_facebook_events` returns a record list,
that list corresponds one-to-one and in order to the array's elements:
element `i` validates to record `i`; nothing is deduplicated, dropped or
reordered. -/
theorem crawl_preserves_array_order (loads : String → Except String Json)
    (result : CrawlResult) (s : String) (items : List Json)
    (evs : List Event)
    (hs : result.success = true)
    (hc : result.extracted_content = some s) (hne : s ≠ "")
    (hp : loads s = .ok (.arr items))
    (ho : (crawl_facebook_events loads result).1 = .returned evs) :
    evs.length = items.length ∧
    ∀ i (hi : i < items.length) (hj : i < evs.length),
      eventOfJson items[i] = .ok evs[i] := by
  rw [crawl_some_eq loads result s hs hc hne, hp] at ho
  simp only [mapExtracted, pyIter, mapItems] at ho
  cases hm : mapEvents items with
  | error e => rw [hm] at ho; simp [mapMapped] at ho
  | ok evs2 =>
    rw [hm] at ho
    simp only [mapMapped, Outcome.returned.injEq] at ho
    exact ho ▸ mapEvents_ok_spec items evs2 hm

/-- Witness for C2 at a concrete one-element extraction. -/
theorem crawl_preserves_array_order_witness :
    ([⟨"d", "t", "o", "l"⟩] : List Event).length =
      ([w2Item] : List Json).length ∧
    ∀ i (hi : i < ([w2Item] : List Json).length)
      (hj : i < ([⟨"d", "t", "o", "l"⟩] : List Event).length),
      eventOfJson ([w2Item] : List Json)[i] =
        .ok ([⟨"d", "t", "o", "l"⟩] : List Event)[i] :=
  crawl_preserves_array_order w2Loads w2Result "x" [w2Item]
    [⟨"d", "t", "o", "l"⟩] rfl rfl (by decide) rfl rfl

/-! ## Reduction lemmas for `main` and the debug-save block -/

theorem main_raised_eq (loads : String → Except String Json)
    (result : CrawlResult) (now : String) (e : RunErr) (effs : List Effect)
    (h : crawl_facebook_events loads result = (.raised e, effs)) :
    main loads result now =
      (.raised e, .log "Crawling BrasserieOrville events..." :: effs) := by
  unfold main
  rw [h]
  rfl

theorem main_returned_nil_eq (loads : String → Except String Json)
    (result : CrawlResult) (now : String) (effs : List Effect)
    (h : crawl_facebook_events loads result = (.returned [], effs)) :
    main loads result now =
      (.returned [],
        .log "Crawling BrasserieOrville events..." ::
          (effs ++ [.log "No events found."])) := by
  unfold main
  rw [h]
  rfl

theorem main_returned_cons_eq (loads : String → Except String Json)
    (result : CrawlResult) (now : String) (ev : Event) (evs : List Event)
    (effs : List Effect)
    (h : crawl_facebook_events loads result = (.returned (ev :: evs), effs)) :
    main loads result now =
      (.returned (ev :: evs),
        [Effect.log "Crawling BrasserieOrville events..."] ++ effs ++
        [.log ("Found " ++ toString (ev :: evs).length ++ " events.")] ++
        (generate_markdown (ev :: evs)
          "https://www.facebook.com/BrasserieOrville/events" now).2 ++
        [.log "Done!"]) := by
  unfold main
  rw [h]
  rfl

theorem debugEffects_mem (result : CrawlResult) :
    ∀ eff ∈ debugEffectsOf result,
      (∃ msg, eff = .log msg) ∨
      (∃ m, result.markdown = some m ∧
        eff = .write "outputs/debug_markdown.md" m) := by
  intro eff heff
  unfold debugEffectsOf at heff
  cases hm : result.markdown with
  | none => rw [hm] at heff; simp at heff
  | some m =>
    rw [hm] at heff
    by_cases hz : m = ""
    · simp [hz] at heff
    · simp [hz] at heff
      rcases heff with rfl | rfl
      · exact Or.inr ⟨m, rfl, rfl⟩
      · exact Or.inl ⟨_, rfl⟩

theorem report_write_not_mem_debug (result : CrawlResult) (c : String) :
    Effect.write "outputs/events.md" c ∉ debugEffectsOf result := by
  intro hmem
  rcases debugEffects_mem result _ hmem with ⟨msg, h⟩ | ⟨m, _, h⟩
  · exact Effect.noConfusion h
  · have : "outputs/events.md" = "outputs/debug_markdown.md" := by
      injection h
    exact absurd this (by decide)

theorem mkdir_not_mem_debug (result : CrawlResult) (p : String) :
    Effect.mkdir p ∉ debugEffectsOf result := by
  intro hmem
  rcases debugEffects_mem result _ hmem with ⟨msg, h⟩ | ⟨m, _, h⟩ <;>
    exact Effect.noConfusion h

/-! ## Claim C5 -/

/-- C5: on a successful crawl with non-empty extracted content, if the
content fails to parse as JSON, or parses to an array containing an element
that does not validate as an `Event`, then `crawl_facebook_events` raises
(no local validation intercepts it) and the exception aborts `main` with no
report file written. -/
theorem crawl_invalid_content_raises (loads : String → Except String Json)
    (result : CrawlResult) (s now : String)
    (hs : result.success = true) (hc : result.extracted_content = some s)
    (hne : s ≠ "")
    (hbad : (∃ msg, loads s = .error msg) ∨
      (∃ items, loads s = .ok (.arr items) ∧
        ∃ x ∈ items, ∀ ev, eventOfJson x ≠ .ok ev)) :
    ∃ e, (crawl_facebook_events loads result).1 = .raised e ∧
      (main loads result now).1 = .raised e ∧
      ∀ c, Effect.write "outputs/events.md" c ∉ (main loads result now).2 := by
  have hcrawl : ∃ e, crawl_facebook_events loads result =
      (.raised e, debugEffectsOf result) := by
    rcases hbad with ⟨msg, hmsg⟩ | ⟨items, hp, hbadelem⟩
    · exact ⟨.jsonDecode msg,
        by rw [crawl_some_eq loads result s hs hc hne, hmsg]; rfl⟩
    · obtain ⟨e, hme⟩ := mapEvents_error_of_mem items hbadelem
      refine ⟨.mapping e, ?_⟩
      rw [crawl_some_eq loads result s hs hc hne, hp]
      simp only [mapExtracted, pyIter, mapItems]
      rw [hme]
      rfl
  obtain ⟨e, hcr⟩ := hcrawl
  refine ⟨e, by rw [hcr], ?_, ?_⟩
  · rw [main_raised_eq loads result now e _ hcr]
  · rw [main_raised_eq loads result now e _ hcr]
    intro c hmem
    rcases List.mem_cons.mp hmem with h | h
    · exact Effect.noConfusion h
    · exact report_write_not_mem_debug result c h

/-- Witness for C5 on a concrete array with a non-validating element. -/
theorem crawl_invalid_content_raises_witness :
    ∃ e, (crawl_facebook_events w5Loads w5Result).1 = .raised e ∧
      (main w5Loads w5Result "t").1 = .raised e ∧
      ∀ c, Effect.write "outputs/events.md" c ∉
        (main w5Loads w5Result "t").2 :=
  crawl_invalid_content_raises w5Loads w5Result "[3]" "t" rfl rfl
    (by decide)
    (Or.inr ⟨[.num 3], rfl, .num 3, List.mem_cons_self _ _, fun ev h => by
      exact Except.noConfusion h⟩)

/-! ## Claim C6 -/

/-- C6: mapping a one-element JSON array whose object lacks the `organizer`
key fails with a pydantic validation error that names `organizer` among the
missing fields. -/
theorem missing_organizer_fails (kvs : List (String × Json))
    (h : lookupField kvs "organizer" = none) :
    ∃ errs, mapEvents [Json.obj kvs] = .error (.validation errs) ∧
      "organizer" ∈ errs := by
  have hg : getStrField kvs "organizer" = none := by
    unfold getStrField
    rw [h]
  refine ⟨Event.fieldNames.filter (fun k => (getStrField kvs k).isNone),
    ?_, ?_⟩
  · rw [mapEvents]
    have he : eventOfJson (Json.obj kvs) = .error (.validation
        (Event.fieldNames.filter (fun k => (getStrField kvs k).isNone))) := by
      unfold eventOfJson
      exact validateEvent_missing_organizer kvs hg
    rw [he]
  · rw [List.mem_filter]
    refine ⟨by decide, ?_⟩
    rw [hg]
    rfl

/-- Witness for C6 at a concrete object missing only `organizer`. -/
theorem missing_organizer_fails_witness :
    ∃ errs, mapEvents [Json.obj w6kvs] = .error (.validation errs) ∧
      "organizer" ∈ errs :=
  missing_organizer_fails w6kvs rfl

/-! ## Classification of the effect traces -/

theorem crawl_effects_success (loads : String → Except String Json)
    (result : CrawlResult) (hs : result.success = true) :
    (crawl_facebook_events loads result).2 =
      debugEffectsOf result ++ [.log "No content extracted."] ∨
    (crawl_facebook_events loads result).2 = debugEffectsOf result := by
  cases hc : result.extracted_content with
  | none => left; rw [crawl_none_eq loads result hs hc]
  | some s =>
    by_cases hz : s = ""
    · left
      subst hz
      rw [crawl_empty_eq loads result hs hc]
    · right
      rw [crawl_some_eq loads result s hs hc hz]
      exact mapExtracted_snd _ _

theorem crawl_effects_cases (loads : String → Except String Json)
    (result : CrawlResult) :
    (crawl_facebook_events loads result).2 =
      [.log ("Crawl failed: " ++ optStr result.error_message)] ∨
    (crawl_facebook_events loads result).2 =
      debugEffectsOf result ++ [.log "No content extracted."] ∨
    (crawl_facebook_events loads result).2 = debugEffectsOf result := by
  by_cases hs : result.success = false
  · left
    rw [crawl_fail_eq loads result hs]
  · have hs' : result.success = true := by
      cases h : result.success
      · exact absurd h hs
      · rfl
    exact Or.inr (crawl_effects_success loads result hs')

theorem crawl_writes_only_debug (loads : String → Except String Json)
    (result : CrawlResult) (p c : String)
    (h : Effect.write p c ∈ (crawl_facebook_events loads result).2) :
    p = "outputs/debug_markdown.md" := by
  rcases crawl_effects_cases loads result with he | he | he <;> rw [he] at h
  · simp at h
  · rcases List.mem_append.mp h with h | h
    · rcases debugEffects_mem result _ h with ⟨msg, hh⟩ | ⟨m, _, hh⟩
      · exact Effect.noConfusion hh
      · injection hh with h1 h2
    · simp at h
  · rcases debugEffects_mem result _ h with ⟨msg, hh⟩ | ⟨m, _, hh⟩
    · exact Effect.noConfusion hh
    · injection hh with h1 h2

theorem crawl_no_mkdir (loads : String → Except String Json)
    (result : CrawlResult) (p : String) :
    Effect.mkdir p ∉ (crawl_facebook_events loads result).2 := by
  intro h
  rcases crawl_effects_cases loads result with he | he | he <;> rw [he] at h
  · simp at h
  · rcases List.mem_append.mp h with h | h
    · exact mkdir_not_mem_debug result p h
    · simp at h
  · exact mkdir_not_mem_debug result p h

theorem filter_report_nil (l : List Effect)
    (h : ∀ p c, Effect.write p c ∈ l → p = "outputs/debug_markdown.md") :
    l.filter isReportWrite = [] := by
  rw [List.filter_eq_nil_iff]
  intro a ha
  cases a with
  | log m => simp [isReportWrite]
  | mkdir p => simp [isReportWrite]
  | write p c =>
    have hp := h p c ha
    subst hp
    simp [isReportWrite]

theorem main_no_report_write_of_nil (loads : String → Except String Json)
    (result : CrawlResult) (now : String) (effs : List Effect)
    (h : crawl_facebook_events loads result = (.returned [], effs)) :
    (main loads result now).1 = .returned [] ∧
    Effect.log "No events found." ∈ (main loads result now).2 ∧
    ∀ c, Effect.write "outputs/events.md" c ∉ (main loads result now).2 := by
  rw [main_returned_nil_eq loads result now effs h]
  refine ⟨rfl, by simp, ?_⟩
  intro c hmem
  rcases List.mem_cons.mp hmem with hh | hh
  · exact Effect.noConfusion hh
  · rcases List.mem_append.mp hh with hh | hh
    · have heq := crawl_writes_only_debug loads result "outputs/events.md" c
        (by rw [h]; exact hh)
      exact absurd heq (by decide)
    · simp at hh

/-! ## Claim C4 -/

/-- C4: when the crawl result has `success = false`, nothing is raised:
`crawl_facebook_events` prints the error message, returns the empty list,
and the run ends (printing `No events found.`) without ever writing the
events report file. -/
theorem crawl_failure_graceful (loads : String → Except String Json)
    (result : CrawlResult) (now : String) (h : result.success = false) :
    (crawl_facebook_events loads result).1 = .returned [] ∧
    (crawl_facebook_events loads result).2 =
      [.log ("Crawl failed: " ++ optStr result.error_message)] ∧
    (main loads result now).1 = .returned [] ∧
    ∀ c, Effect.write "outputs/events.md" c ∉ (main loads result now).2 := by
  have hc := crawl_fail_eq loads result h
  have hm := main_no_report_write_of_nil loads result now _ hc
  exact ⟨by rw [hc], by rw [hc], hm.1, hm.2.2⟩

/-- Witness for C4 at a concrete failed crawl. -/
theorem crawl_failure_graceful_witness :
    (crawl_facebook_events wLoadsUnused w4Result).1 = .returned [] ∧
    (crawl_facebook_events wLoadsUnused w4Result).2 =
      [.log ("Crawl failed: " ++ optStr w4Result.error_message)] ∧
    (main wLoadsUnused w4Result "t").1 = .returned [] ∧
    ∀ c, Effect.write "outputs/events.md" c ∉
      (main wLoadsUnused w4Result "t").2 :=
  crawl_failure_graceful wLoadsUnused w4Result "t" rfl

/-! ## Claim C7 -/

/-- C7: when the crawl succeeds but the extracted content is absent or
empty, the run logs `No content extracted.`, returns the empty list, and
ends without writing the events report file. -/
theorem empty_extraction_graceful (loads : String → Except String Json)
    (result : CrawlResult) (now : String)
    (hs : result.success = true)
    (hc : result.extracted_content = none ∨
      result.extracted_content = some "") :
    (crawl_facebook_events loads result).1 = .returned [] ∧
    Effect.log "No content extracted." ∈
      (crawl_facebook_events loads result).2 ∧
    (main loads result now).1 = .returned [] ∧
    ∀ c, Effect.write "outputs/events.md" c ∉ (main loads result now).2 := by
  have hcr : crawl_facebook_events loads result =
      (.returned [],
       debugEffectsOf result ++ [.log "No content extracted."]) := by
    rcases hc with hc | hc
    · exact crawl_none_eq loads result hs hc
    · exact crawl_empty_eq loads result hs hc
  have hm := main_no_report_write_of_nil loads result now _ hcr
  exact ⟨by rw [hcr], by rw [hcr]; simp, hm.1, hm.2.2⟩

/-- Witness for C7 at a concrete content-less crawl. -/
theorem empty_extraction_graceful_witness :
    (crawl_facebook_events wLoadsUnused w7Result).1 = .returned [] ∧
    Effect.log "No content extracted." ∈
      (crawl_facebook_events wLoadsUnused w7Result).2 ∧
    (main wLoadsUnused w7Result "t").1 = .returned [] ∧
    ∀ c, Effect.write "outputs/events.md" c ∉
      (main wLoadsUnused w7Result "t").2 :=
  empty_extraction_graceful wLoadsUnused w7Result "t" rfl (Or.inl rfl)

/-! ## Claim C10 -/

/-- C10: a failed crawl, a successful crawl with empty or absent extracted
content, and a successful crawl whose extraction is the empty JSON array all
make `crawl_facebook_events` return the very same value, the empty list --
indistinguishable to the caller -- and in each case `main` prints
`No events found.` and writes no report. -/
theorem empty_return_indistinguishable (loads : String → Except String Json)
    (result : CrawlResult) (now : String)
    (h : result.success = false ∨
      (result.success = true ∧
        (result.extracted_content = none ∨
         result.extracted_content = some "")) ∨
      (result.success = true ∧ ∃ s, result.extracted_content = some s ∧
        s ≠ "" ∧ loads s = .ok (.arr []))) :
    (crawl_facebook_events loads result).1 = .returned [] ∧
    (main loads result now).1 = .returned [] ∧
    Effect.log "No events found." ∈ (main loads result now).2 ∧
    ∀ c, Effect.write "outputs/events.md" c ∉ (main loads result now).2 := by
  have hcr : ∃ effs, crawl_facebook_events loads result =
      (.returned [], effs) := by
    rcases h with h | ⟨hs, hc | hc⟩ | ⟨hs, s, hc, hz, hl⟩
    · exact ⟨_, crawl_fail_eq loads result h⟩
    · exact ⟨_, crawl_none_eq loads result hs hc⟩
    · exact ⟨_, crawl_empty_eq loads result hs hc⟩
    · refine ⟨debugEffectsOf result, ?_⟩
      rw [crawl_some_eq loads result s hs hc hz, hl]
      rfl
  obtain ⟨effs, hcr⟩ := hcr
  have hm := main_no_report_write_of_nil loads result now _ hcr
  exact ⟨by rw [hcr], hm.1, hm.2.1, hm.2.2⟩

/-- Witness for C10 on the empty-JSON-array scenario. -/
theorem empty_return_indistinguishable_witness :
    (crawl_facebook_events w10Loads w10Result).1 = .returned [] ∧
    (main w10Loads w10Result "t").1 = .returned [] ∧
    Effect.log "No events found." ∈ (main w10Loads w10Result "t").2 ∧
    ∀ c, Effect.write "outputs/events.md" c ∉
      (main w10Loads w10Result "t").2 :=
  empty_return_indistinguishable w10Loads w10Result "t"
    (Or.inr (Or.inr ⟨rfl, "[]", rfl, by decide, rfl⟩))

/-! ## Claim C8 -/

/-- C8, as stated, is false: a run may write a second file,
`outputs/debug_markdown.md`, besides the report. -/
theorem single_artifact_counterexample :
    Effect.write "outputs/debug_markdown.md" "md" ∈
      (main w8Loads w8Result "t").2 ∧
    "outputs/debug_markdown.md" ≠ "outputs/events.md" := by
  decide

/-- C8 (amended): the report artifact is the single fixed path
`outputs/events.md`, written by at most one overwriting write per run (no
append, no versioning); the only other file a run can write is the debug
dump `outputs/debug_markdown.md`. -/
theorem run_write_targets (loads : String → Except String Json)
    (result : CrawlResult) (now : String) :
    (∀ p c, Effect.write p c ∈ (main loads result now).2 →
      p = "outputs/events.md" ∨ p = "outputs/debug_markdown.md") ∧
    ((main loads result now).2.filter isReportWrite).length ≤ 1 := by
  cases hcr : crawl_facebook_events loads result with
  | mk o effs =>
    have heffs : ∀ p c, Effect.write p c ∈ effs →
        p = "outputs/debug_markdown.md" :=
      fun p c hmem => crawl_writes_only_debug loads result p c
        (by rw [hcr]; exact hmem)
    have hfil : effs.filter isReportWrite = [] := filter_report_nil effs heffs
    cases o with
    | raised e =>
      rw [main_raised_eq loads result now e effs hcr]
      constructor
      · intro p c hmem
        rcases List.mem_cons.mp hmem with hh | hh
        · exact Effect.noConfusion hh
        · exact Or.inr (heffs p c hh)
      · simp [List.filter_cons, isReportWrite, hfil]
    | returned evs =>
      cases evs with
      | nil =>
        rw [main_returned_nil_eq loads result now effs hcr]
        constructor
        · intro p c hmem
          rcases List.mem_cons.mp hmem with hh | hh
          · exact Effect.noConfusion hh
          · rcases List.mem_append.mp hh with hh | hh
            · exact Or.inr (heffs p c hh)
            · simp at hh
        · simp [List.filter_cons, List.filter_append, isReportWrite, hfil]
      | cons ev evs2 =>
        rw [main_returned_cons_eq loads result now ev evs2 effs hcr]
        constructor
        · intro p c hmem
          rcases List.mem_append.mp hmem with hm1 | hh
          · rcases List.mem_append.mp hm1 with hm2 | hh
            · rcases List.mem_append.mp hm2 with hm3 | hh
              · rcases List.mem_append.mp hm3 with hm4 | hh
                · simp at hm4
                · exact Or.inr (heffs p c hh)
              · simp at hh
            · simp only [generate_markdown, List.mem_cons,
                List.not_mem_nil] at hh
              rcases hh with hh | hh | hh | hh
              · exact Effect.noConfusion hh
              · left
                injection hh with h1 h2
              · exact Effect.noConfusion hh
              · exact absurd hh (by simp)
          · simp at hh
        · simp [List.filter_cons, List.filter_append, isReportWrite, hfil,
            generate_markdown]

/-! ## Claim C9 -/

theorem main_starts_debug_write (loads : String → Except String Json)
    (result : CrawlResult) (now m : String)
    (hs : result.success = true) (hm : result.markdown = some m)
    (hne : m ≠ "") :
    ∃ rest, (main loads result now).2 =
      .log "Crawling BrasserieOrville events..." ::
        .write "outputs/debug_markdown.md" m :: rest := by
  have hdbg : debugEffectsOf result =
      [.write "outputs/debug_markdown.md" m,
       .log "Debug markdown saved to outputs/debug_markdown.md"] := by
    unfold debugEffectsOf
    rw [hm]
    simp [hne]
  have hce := crawl_effects_success loads result hs
  cases hocr : crawl_facebook_events loads result with
  | mk o effs =>
    rw [hocr] at hce
    simp only at hce
    cases o with
    | raised e =>
      rw [main_raised_eq loads result now e effs hocr]
      rcases hce with hce | hce <;> rw [hce, hdbg] <;> exact ⟨_, rfl⟩
    | returned evs =>
      cases evs with
      | nil =>
        rw [main_returned_nil_eq loads result now effs hocr]
        rcases hce with hce | hce <;> rw [hce, hdbg] <;> exact ⟨_, rfl⟩
      | cons ev evs2 =>
        rw [main_returned_cons_eq loads result now ev evs2 effs hocr]
        rcases hce with hce | hce <;> rw [hce, hdbg] <;> exact ⟨_, rfl⟩

/-- C9: `crawl_facebook_events` never creates a directory (`outputs/` is
only made inside `generate_markdown`, which runs later), yet it opens
`outputs/debug_markdown.md` for writing; so a successful crawl with
non-empty markdown, run when no directory exists yet, stops at the debug
write with `FileNotFoundError`, before any file (the report included) has
been written. -/
theorem debug_write_fails_first (loads : String → Except String Json)
    (result : CrawlResult) (now m : String)
    (hs : result.success = true) (hm : result.markdown = some m)
    (hne : m ≠ "") :
    (∀ p, Effect.mkdir p ∉ (crawl_facebook_events loads result).2) ∧
    runFs [] [] (main loads result now).2 =
      ([], some (.fileNotFound "outputs/debug_markdown.md")) := by
  refine ⟨fun p => crawl_no_mkdir loads result p, ?_⟩
  obtain ⟨rest, hmain⟩ := main_starts_debug_write loads result now m hs hm hne
  rw [hmain]
  have hdir : ¬(dirOf "outputs/debug_markdown.md" = "" ∨
      dirOf "outputs/debug_markdown.md" ∈ ([] : List String)) := by
    decide
  have h1 : runFs [] [] (Effect.log "Crawling BrasserieOrville events..." ::
      Effect.write "outputs/debug_markdown.md" m :: rest) =
      runFs [] [] (Effect.write "outputs/debug_markdown.md" m :: rest) := rfl
  rw [h1]
  simp only [runFs]
  rw [if_neg hdir]

/-- Witness for C9 at a concrete successful crawl with markdown. -/
theorem debug_write_fails_first_witness :
    (∀ p, Effect.mkdir p ∉ (crawl_facebook_events w9Loads w9Result).2) ∧
    runFs [] [] (main w9Loads w9Result "t").2 =
      ([], some (.fileNotFound "outputs/debug_markdown.md")) :=
  debug_write_fails_first w9Loads w9Result "t" "# page" rfl rfl (by decide)

end BeerAgenda
